import Mathlib

/-!
Verification development for the self-expanding-agents repository.

The Python sources are shallowly embedded:
* `session_logger.log_session_event` (the Event Store append) as a pure
  state-passing function over an explicit file-content model plus an I/O
  oracle that says which raw file operations fail;
* `dynamic_agents/restart_hook.main` (the aggressive restart Hook
  Dispatcher) as a function from modelled stdin to an exit code and a
  "restart script spawned" flag;
* the supervisor loop of `start_dynamic_system.start_claude_with_config`
  as a step function from loop state and poll observations to actions
  (signals, marker-file operations, relaunches);
* the Completion Detector (structured `**AGENT_CREATED**` marker scan with
  a file-existence fallback) modelled from the spec, since only its tests
  and callers appear in the sources.
-/

namespace SelfExpand

/-! ## Event Store: `session_logger.log_session_event` -/

/-- One event record, mirroring the dict built at the top of
`log_session_event` (`timestamp`, `event_type`, `data`). The payload is
kept opaque as a string. -/
structure Event where
  timestamp : String
  event_type : String
  data : String
  deriving DecidableEq, Repr

/-- The JSON value stored in `session_events.json`, as far as the logger
distinguishes it: a JSON array of events, or some other valid JSON value
(the `isinstance(events, list)` check only cares which of the two it is). -/
inductive JsonVal where
  | list (es : List Event)
  | nonList
  deriving DecidableEq, Repr

/-- Content of the log file as seen by the logger: absent
(`log_file.exists()` is false), present but not valid JSON
(`json.load` raises `JSONDecodeError`; an empty file is one such case),
or present with a valid JSON value. -/
inductive LogFile where
  | absent
  | unparseable
  | json (v : JsonVal)
  deriving DecidableEq, Repr

/-- Exceptions the embedded file operations can raise. -/
inductive PyErr where
  | ioError
  deriving DecidableEq, Repr

/-- I/O oracle: which raw file operations fail with an `OSError`-like
exception on this call. Parse failures are not oracle-driven; they are a
property of the file content. `open(log_file, 'w')` truncates before
`json.dump` writes, so when the write path fails the log file is left
with whatever the interrupted write produced (nothing, a prefix, …);
`wreckage` is that environment-determined content. -/
structure IOOracle where
  readFails : Bool
  writeFails : Bool
  wreckage : LogFile
  deriving DecidableEq, Repr

/-- The oracle under which no raw file operation fails (the `wreckage`
field is irrelevant then). -/
def okIO : IOOracle :=
  { readFails := false, writeFails := false, wreckage := .unparseable }

/-- The read phase of `log_session_event`: if the file exists, open it
(may raise, and that exception is NOT caught by the inner
`except json.JSONDecodeError` handler) and parse it; a parse failure or a
non-list value yields the empty list; an absent file yields the empty
list without touching the filesystem. -/
def loadExisting (o : IOOracle) (f : LogFile) : Except PyErr (List Event) :=
  match f with
  | .absent => .ok []
  | .unparseable => if o.readFails then .error .ioError else .ok []
  | .json .nonList => if o.readFails then .error .ioError else .ok []
  | .json (.list es) => if o.readFails then .error .ioError else .ok es

/-- The write phase of `log_session_event`: rewrite the whole file with
the new array. Opening for write truncates before `json.dump` runs, so
a failure anywhere on the write path (open, dump, flock) raises and
leaves the file holding the oracle's `wreckage` — the unchanged prior
content only in the special case where `open` itself failed. -/
def writeEvents (o : IOOracle) (es : List Event) : Except PyErr LogFile :=
  if o.writeFails then .error .ioError else .ok (.json (.list es))

/-- Result of one `log_session_event` call: the file content afterwards
and whether the stderr fallback fired. The function is total: no
exception escapes to the caller. -/
structure LogResult where
  file : LogFile
  stderrFallback : Bool
  deriving DecidableEq, Repr

/-- `log_session_event(event_type, data)` as a transformer of the file
state: load the existing events (inner handler already applied), append
the new event, rewrite the file; any exception escaping those steps is
caught by the outer `except Exception` handler, which prints the record
to stderr and returns normally. A failed read leaves the file as it
was (reading does not modify it); a failed write leaves the wreckage of
the truncate-then-dump attempt. -/
def log_session_event (o : IOOracle) (f : LogFile) (ev : Event) : LogResult :=
  match loadExisting o f with
  | .error _ => { file := f, stderrFallback := true }
  | .ok es =>
    match writeEvents o (es ++ [ev]) with
    | .error _ => { file := o.wreckage, stderrFallback := true }
    | .ok f2 => { file := f2, stderrFallback := false }

/-- Folding `log_session_event` over a list of events (one hook
invocation per event, no concurrency). -/
def appendAll (o : IOOracle) (f : LogFile) (evs : List Event) : LogFile :=
  evs.foldl (fun f e => (log_session_event o f e).file) f

/-- Reading the log back (`json.load` in `show_session_log`): an absent
or unparseable file shows no events; a non-list value yields no event
records; a list yields its elements in file order. -/
def readLog : LogFile → List Event
  | .absent => []
  | .unparseable => []
  | .json .nonList => []
  | .json (.list es) => es

/-! ## Restart hook: `dynamic_agents/restart_hook.main` -/

/-- A JSON value sitting in the `result` field of the hook payload: a
string, or any non-string value (on which `task_result.lower()` raises
`AttributeError`). -/
inductive JVal where
  | str (s : String)
  | nonStr
  deriving DecidableEq, Repr

/-- The parsed hook payload as far as `main` consumes it: the optional
`result` field and the Python `str()` rendering of the whole dict (used
as the default when `result` is absent). -/
structure HookData where
  result : Option JVal
  reprStr : String
  deriving DecidableEq, Repr

/-- `str({})`, the rendering of the empty dict. -/
def emptyDictStr : String := "\x7b\x7d"

/-- The empty payload `hook_data = {}` installed when stdin is empty or
not JSON. -/
def emptyHookData : HookData := { result := none, reprStr := emptyDictStr }

/-- What arrives on the dispatcher's stdin: either data that fails
`json.load` (including empty input), or a parsed JSON object. -/
inductive Stdin where
  | emptyOrInvalid (raw : String)
  | valid (hd : HookData)
  deriving DecidableEq, Repr

/-- Substring test on char lists, the embedding of Python's
`keyword in task_result`. -/
def subOccurs (sub : List Char) : List Char → Bool
  | [] => sub.isEmpty
  | c :: cs => sub.isPrefixOf (c :: cs) || subOccurs sub cs

/-- The creation keywords scanned for in `restart_hook.main`. -/
def creationKeywords : List String :=
  ["agent created", "generated", "specialized agent", "subagent", "created"]

/-- Python's `str.lower()`: lower-case every character. -/
def pyLower (s : String) : List Char := s.toList.map Char.toLower

/-- The `likely_created` expression of `restart_hook.main`: some keyword
occurs in the lower-cased result text, or the text is longer than 50
characters. -/
def likely_created (task_result : String) : Bool :=
  creationKeywords.any (fun k => subOccurs k.toList (pyLower task_result))
    || task_result.length > 50

/-- Outcome of one `restart_hook.main` invocation: the process exit code
and whether the background restart script was spawned. -/
structure HookResult where
  code : Nat
  restartSpawned : Bool
  deriving DecidableEq, Repr

/-- The value of `hook_data.get('result', str(hook_data))` for a given
stdin. -/
def taskResultOf : Stdin → JVal
  | .emptyOrInvalid _ => .str emptyHookData.reprStr
  | .valid hd => hd.result.getD (.str hd.reprStr)

/-- `restart_hook.main`: parse stdin (a decode failure falls back to the
empty dict); compute `likely_created` on the result text — if the result
field holds a non-string, `.lower()` raises `AttributeError`, the outer
`except Exception` handler prints the error and calls `sys.exit(1)`; on
a string, the restart script is spawned iff `likely_created`, and the
process exits 0 either way. -/
def restart_hook_main (input : Stdin) : HookResult :=
  match taskResultOf input with
  | .nonStr => { code := 1, restartSpawned := false }
  | .str s =>
    if likely_created s then { code := 0, restartSpawned := true }
    else { code := 0, restartSpawned := false }

/-- Whether processing this stdin raises inside the `try` body (the one
input-dependent raising operation is `.lower()` on a non-string
`result`). -/
def hookRaises (input : Stdin) : Bool :=
  match taskResultOf input with
  | .nonStr => true
  | .str _ => false

/-! ## Supervisor loop: `start_dynamic_system.start_claude_with_config` -/

/-- What `child_proc.poll()` reports at the top of a loop iteration. -/
inductive Poll where
  | running
  | exited (code : Int)
  deriving DecidableEq, Repr

/-- The filesystem/loop state the supervisor consults: existence of the
`.restart_needed` marker, existence of `.primary_locked`, and whether a
restart has already happened (`restarted_once`). -/
structure LoopState where
  marker : Bool
  locked : Bool
  restartedOnce : Bool
  deriving DecidableEq, Repr

/-- Observable actions of one supervisor-loop iteration, in program
order. -/
inductive SupAction where
  | unlinkRestartMarker
  | sigtermGroup
  | waitChild (timeoutSecs : Nat)
  | sigkillGroup
  | touchLockFile
  | unlinkLockFile
  | launch (cmd : List String)
  | sleepSecond
  deriving DecidableEq, Repr

/-- The relaunch command built in the marker branch: `--continue` with a
resume message, the Task-only tool restriction, and the permission mode
chosen by `headless`. -/
def restartCmd (headless : Bool) : List String :=
  ["claude", "--continue", "meta-agent finished. continue with original task",
    "--allowedTools", "Task"]
    ++ (if headless then ["--permission-mode", "bypassPermissions"]
        else ["--permission-mode", "acceptEdits"])

/-- One iteration of the supervisor's `while True` loop. The marker is
checked after `child_proc.poll()` runs but before its result is
consulted. In the marker branch with the child still running: the
marker is unlinked, SIGTERM goes to the child's process group, the
supervisor waits up to 5 seconds (`child_proc.wait(timeout=5)`), SIGKILL
goes to the group iff that wait times out, `.primary_locked` is touched,
and the child is relaunched with `restartCmd`. In the marker branch
with the child already exited: `poll()` has reaped the child, so after
the marker is unlinked `os.getpgid(child_proc.pid)` raises
`ProcessLookupError`, the outer `except Exception` handler catches it
and the routine returns 1 — no signal is sent, the lock marker is
neither touched nor cleared, and nothing is relaunched. In the exit
branch (no marker, child exited): `.primary_locked` is unlinked and the
loop returns the child's exit code. Otherwise the loop sleeps one
second. -/
def loopIter (headless : Bool) (st : LoopState) (poll : Poll)
    (termTimesOut : Bool) : LoopState × List SupAction × Option Int :=
  if st.marker then
    match poll with
    | .exited _ =>
      ({ st with marker := false }, [.unlinkRestartMarker], some 1)
    | .running =>
      (⟨false, true, true⟩,
        [.unlinkRestartMarker, .sigtermGroup, .waitChild 5]
          ++ (if termTimesOut then [.sigkillGroup] else [])
          ++ [.touchLockFile, .launch (restartCmd headless)],
        none)
  else
    match poll with
    | .exited code => ({ st with locked := false }, [.unlinkLockFile], some code)
    | .running => (st, [.sleepSecond], none)

/-! ## Temporary-file lifecycle of `start_claude_with_config` -/

/-- The temporary files the launch routine creates: the system-prompt
file (always) and the task file (only when a task is given). -/
inductive TempFile where
  | promptFile
  | taskFile
  deriving DecidableEq, Repr

/-- The exit paths of `start_claude_with_config`: normal loop return,
`KeyboardInterrupt`, or the generic exception handler. -/
inductive ExitPath where
  | normalReturn (code : Int)
  | interrupt
  | exceptionCaught
  deriving DecidableEq, Repr

/-- Temporary files created on a run: the prompt file always, the task
file iff a task was supplied. -/
def createdTempFiles (task : Option String) : List TempFile :=
  [.promptFile] ++ (match task with | some _ => [.taskFile] | none => [])

/-- Files deleted by the `finally` block: only `prompt_file.name` is
passed to `os.unlink`; the `finally` block runs on every exit path. -/
def finallyUnlinked : List TempFile := [.promptFile]

/-- The temporary files still on disk when `start_claude_with_config`
returns along a given exit path; the `finally` block is the only cleanup
and runs identically on all paths. -/
def remainingTempFiles (task : Option String) (_path : ExitPath) : List TempFile :=
  (createdTempFiles task).filter (fun f => !(finallyUnlinked.contains f))

/-! ## Completion Detector (modelled from the spec)

Only the aggressive restart policy (`restart_hook.py`) appears under the
sources; the strict marker-matching detector is referenced by the tests
(`test_flow_progress.py` checks for the `**AGENT_CREATED**` signal
format and for the Phoenix hook registration) but its hook script is not
among the source files, so it is modelled from the spec. -/

/-- Modelled from the spec: the lower-cased literal marker
`**AGENT_CREATED**:` that the Completion Detector scans for. -/
def markerPat : List Char := "**agent_created**:".toList

/-- Modelled from the spec: the lower-cased connective `specialized for`
expected between the agent name and the purpose text. -/
def specPat : List Char := "specialized for".toList

/-- Case-insensitive literal match: strip `pat` (stored lower-case) off
the front of `cs`, comparing each char lower-cased, returning the rest. -/
def caselessStrip : List Char → List Char → Option (List Char)
  | [], cs => some cs
  | _ :: _, [] => none
  | p :: ps, c :: cs => if c.toLower = p then caselessStrip ps cs else none

/-- Drop leading spaces. -/
def skipSpaces (cs : List Char) : List Char := cs.dropWhile (fun c => c == ' ')

/-- Characters allowed in the hyphenated/underscored agent identifier. -/
def isIdentChar (c : Char) : Bool := c.isAlphanum || c == '-' || c == '_'

/-- Modelled from the spec: try to match the completion signal starting
exactly at the head of `cs` — the literal marker (case-insensitive),
optional spaces, a non-empty identifier, optional spaces, the literal
`specialized for` (case-insensitive), optional spaces, then the purpose:
free text up to end-of-line. Captures keep their original casing. -/
def matchAt (cs : List Char) : Option (String × String) :=
  match caselessStrip markerPat cs with
  | none => none
  | some cs1 =>
    match (skipSpaces cs1).takeWhile isIdentChar with
    | [] => none
    | n0 :: ns =>
      match caselessStrip specPat
          (skipSpaces ((skipSpaces cs1).dropWhile isIdentChar)) with
      | none => none
      | some cs4 =>
        some (String.mk (n0 :: ns),
          String.mk ((skipSpaces cs4).takeWhile (fun c => !(c == '\n'))))

/-- Modelled from the spec: scan left to right for the first position
where the completion signal matches (first occurrence wins). -/
def scanText : List Char → Option (String × String)
  | [] => none
  | c :: cs =>
    match matchAt (c :: cs) with
    | some r => some r
    | none => scanText cs

/-- Modelled from the spec: `detect(responseText)` returns the captured
agent name and purpose of the first completion signal, if any. -/
def detect (text : String) : Option (String × String) := scanText text.toList

/-- Modelled from the spec: the file-existence fallback heuristic —
creation is assumed iff more than one markdown file exists in the
agent-definitions directory (i.e. something beyond the baseline meta
definition) and at least one generated tool-server file exists in the
generated-tools directory. -/
def fallbackHeuristic (mdCount toolCount : Nat) : Bool :=
  decide (1 < mdCount) && decide (0 < toolCount)

/-- Modelled from the spec: the detector's overall verdict — the
structured marker if present, else the fallback heuristic. -/
def detectionVerdict (text : String) (mdCount toolCount : Nat) : Bool :=
  (detect text).isSome || fallbackHeuristic mdCount toolCount

/-- `pre` starts no completion-signal match anywhere strictly before the
text `t` that follows it (used to pin down the first occurrence). -/
def noEarlierMatch (t : List Char) : List Char → Bool
  | [] => true
  | c :: cs => (matchAt ((c :: cs) ++ t)).isNone && noEarlierMatch t cs

/-- The first character, if any, is not a space. -/
def headNotSpace : List Char → Bool
  | [] => true
  | c :: _ => !(c == ' ')

/-- The completion-signal text `<marker>: <name> specialized for
<purpose>` followed by an end of line, with arbitrary casing of the two
literals, placed after arbitrary preceding text `pre` and before
arbitrary following text `rest`. -/
def signalTail (mk name sp purpose rest : String) : String :=
  mk ++ " " ++ name ++ " " ++ sp ++ " " ++ purpose ++ "\n" ++ rest

/-- Everything claim C1 asserts about one supervisor iteration that sees
the restart marker, stated over the iteration's result `r`: the marker
is unlinked exactly once; the iteration starts with
unlink-marker/SIGTERM/bounded 5-second wait in that order; SIGKILL is
sent iff the wait timed out; the lock marker is touched; the child is
relaunched with the continuation command, which carries `--continue` and
the adjacent `--allowedTools Task` restriction; the lock marker is never
unlinked in this branch (it persists across the relaunch, with the new
state recording it as set); and the loop does not return. -/
def restartCycleOk (headless t : Bool)
    (r : LoopState × List SupAction × Option Int) : Prop :=
  r.2.1.count .unlinkRestartMarker = 1 ∧
  List.isPrefixOf
    [SupAction.unlinkRestartMarker, .sigtermGroup, .waitChild 5] r.2.1 = true ∧
  ((SupAction.sigkillGroup ∈ r.2.1) ↔ t = true) ∧
  SupAction.touchLockFile ∈ r.2.1 ∧
  SupAction.launch (restartCmd headless) ∈ r.2.1 ∧
  "--continue" ∈ restartCmd headless ∧
  (restartCmd headless)[3]? = some "--allowedTools" ∧
  (restartCmd headless)[4]? = some "Task" ∧
  SupAction.unlinkLockFile ∉ r.2.1 ∧
  r.1.marker = false ∧ r.1.locked = true ∧ r.2.2 = none

/-! ## Theorems -/

/-- Stripping a case-insensitive literal off a text that begins with a
casing variant of it leaves exactly the remainder. -/
theorem caselessStrip_of_map (xs ys : List Char) :
    caselessStrip (xs.map Char.toLower) (xs ++ ys) = some ys := by
  induction xs with
  | nil => rfl
  | cons x l ih => simp [caselessStrip, ih]

/-- `takeWhile` over a satisfying block followed by a failing element
returns exactly the block. -/
theorem takeWhile_append_stop (p : Char → Bool) (xs : List Char) (y : Char)
    (ys : List Char) (hxs : xs.all p = true) (hy : p y = false) :
    (xs ++ y :: ys).takeWhile p = xs := by
  induction xs with
  | nil => simp [List.takeWhile_cons, hy]
  | cons a l ih =>
    simp only [List.all_cons, Bool.and_eq_true] at hxs
    simp [List.takeWhile_cons, hxs.1, ih hxs.2]

/-- `dropWhile` over a satisfying block followed by a failing element
drops exactly the block. -/
theorem dropWhile_append_stop (p : Char → Bool) (xs : List Char) (y : Char)
    (ys : List Char) (hxs : xs.all p = true) (hy : p y = false) :
    (xs ++ y :: ys).dropWhile p = y :: ys := by
  induction xs with
  | nil => simp [List.dropWhile_cons, hy]
  | cons a l ih =>
    simp only [List.all_cons, Bool.and_eq_true] at hxs
    simp [List.dropWhile_cons, hxs.1, ih hxs.2]

/-- `skipSpaces` is the identity on text that does not begin with a
space. -/
theorem skipSpaces_eq_self (cs : List Char) (h : headNotSpace cs = true) :
    skipSpaces cs = cs := by
  cases cs with
  | nil => rfl
  | cons c l =>
    simp only [headNotSpace, Bool.not_eq_true'] at h
    simp [skipSpaces, List.dropWhile_cons, h]

/-- Prepending a nonempty block that starts no match does not change the
scan result. -/
theorem scanText_skip (t : List Char) (pre : List Char)
    (H : noEarlierMatch t pre = true) : scanText (pre ++ t) = scanText t := by
  induction pre with
  | nil => rfl
  | cons c cs ih =>
    simp only [noEarlierMatch, Bool.and_eq_true, Option.isNone_iff_eq_none,
      List.cons_append] at H
    show (match matchAt (c :: (cs ++ t)) with
      | some r => some r
      | none => scanText (cs ++ t)) = scanText t
    rw [H.1]
    exact ih H.2

/-- Appending events one call at a time to a well-formed array file
keeps all prior events and adds the new ones at the end, in order. -/
theorem appendAll_events (evs : List Event) : ∀ acc : List Event,
    appendAll okIO (.json (.list acc)) evs = .json (.list (acc ++ evs)) := by
  induction evs with
  | nil => intro acc; simp [appendAll]
  | cons e es ih =>
    intro acc
    have h1 : appendAll okIO (.json (.list acc)) (e :: es)
        = appendAll okIO (.json (.list (acc ++ [e]))) es := rfl
    rw [h1, ih]
    simp

/-- C1: in every supervisor iteration that finds the restart-request
marker while the child process is still being managed (running, so not
yet reaped by `poll()`), the supervisor deletes the marker exactly once,
sends SIGTERM to the child's process group, waits up to 5 seconds, sends
SIGKILL to the group iff that wait times out, touches the Lock Marker,
and relaunches with the continuation command carrying `--continue` and
the adjacent `--allowedTools Task` restriction; the Lock Marker is not
deleted in this branch and the resulting state records it as set, and
the loop does not return. (If the child has already exited, `os.getpgid`
raises on the reaped pid and no restart cycle happens.) -/
theorem C1_restart_cycle (headless : Bool) (st : LoopState)
    (t : Bool) (hm : st.marker = true) :
    restartCycleOk headless t (loopIter headless st .running t) := by
  unfold restartCycleOk
  cases t <;> cases headless <;> simp only [loopIter, hm, if_true] <;> decide

/-- Witness for C1 at a concrete state and iteration input. -/
theorem C1_restart_cycle_witness :
    restartCycleOk false true (loopIter false ⟨true, false, false⟩ .running true) :=
  C1_restart_cycle false ⟨true, false, false⟩ true rfl

/-- C2: in every supervisor iteration where no restart marker is present
and the child has exited on its own, the supervisor unlinks the Lock
Marker and terminates the loop returning the child's exit code. -/
theorem C2_exit_clears_lock (headless : Bool) (st : LoopState) (code : Int)
    (t : Bool) (hm : st.marker = false) :
    loopIter headless st (.exited code) t
      = ({ st with locked := false }, [.unlinkLockFile], some code) := by
  simp [loopIter, hm]

/-- Witness for C2 at a concrete state and exit code. -/
theorem C2_exit_clears_lock_witness :
    loopIter false ⟨false, true, false⟩ (.exited 3) false
      = (⟨false, false, false⟩, [.unlinkLockFile], some 3) :=
  C2_exit_clears_lock false ⟨false, true, false⟩ 3 false rfl

/-- C4 counterexample: a hook invocation whose `result` field holds a
non-string raises inside the dispatcher (on `.lower()`), and the handler
exits with code 1, not 0 — so an internal failure is not converted to
exit code 0. -/
theorem C4_counterexample :
    (restart_hook_main (.valid ⟨some .nonStr, "unused"⟩)).code = 1 := rfl

/-- C4 amended: an internal exception is caught (never propagated), but
the dispatcher then exits with code 1; invocations that do not raise
exit with code 0. -/
theorem C4_amended_exit_codes (input : Stdin) :
    (restart_hook_main input).code = if hookRaises input then 1 else 0 := by
  unfold restart_hook_main hookRaises
  cases taskResultOf input with
  | nonStr => rfl
  | str s =>
    simp only [if_true]
    split <;> rfl

/-- C5: appending N events to a fresh (absent or empty/unparseable)
event-log file, one `log_session_event` call per event with no I/O
failures, and reading the log back yields exactly those N events in
insertion order. -/
theorem C5_roundtrip (f0 : LogFile) (evs : List Event)
    (hfresh : f0 = .absent ∨ f0 = .unparseable) :
    readLog (appendAll okIO f0 evs) = evs := by
  rcases hfresh with h | h
  · subst h
    cases evs with
    | nil => rfl
    | cons e es =>
      have h1 : appendAll okIO .absent (e :: es)
          = appendAll okIO (.json (.list ([] ++ [e]))) es := rfl
      rw [h1, appendAll_events]
      simp [readLog]
  · subst h
    cases evs with
    | nil => rfl
    | cons e es =>
      have h1 : appendAll okIO .unparseable (e :: es)
          = appendAll okIO (.json (.list ([] ++ [e]))) es := rfl
      rw [h1, appendAll_events]
      simp [readLog]

/-- Witness for C5: three concrete events round-trip from a fresh file. -/
theorem C5_roundtrip_witness :
    readLog (appendAll okIO .absent
        [⟨"t1", "user_prompt_submit", "a"⟩, ⟨"t2", "post_tool_use", "b"⟩,
          ⟨"t3", "subagent_stop", "c"⟩])
      = [⟨"t1", "user_prompt_submit", "a"⟩, ⟨"t2", "post_tool_use", "b"⟩,
          ⟨"t3", "subagent_stop", "c"⟩] :=
  C5_roundtrip _ _ (Or.inl rfl)

/-- C6 counterexample: when reading the existing log file fails with an
I/O error (the file exists and holds a valid array), the call does NOT
treat the content as empty and append (which would produce the
one-element array and no stderr fallback); instead the outer handler
fires the stderr fallback and leaves the file unchanged. -/
theorem C6_counterexample :
    log_session_event
        { readFails := true, writeFails := false, wreckage := .unparseable }
        (.json (.list [])) ⟨"t1", "pre_tool_use", "d1"⟩
      ≠ { file := .json (.list [⟨"t1", "pre_tool_use", "d1"⟩]),
          stderrFallback := false } := by decide

/-- C6 amended: a parse failure (or a non-array value) is recovered by
treating the content as empty; a read I/O failure on an existing file
is recovered by the stderr fallback with the file left as it was; a
write failure is recovered by the stderr fallback, returning normally,
the file holding whatever the interrupted truncate-then-dump left
behind; in every case the call returns normally (the embedding is a
total function). -/
theorem C6_amended (o : IOOracle) (f : LogFile) (ev : Event) :
    log_session_event o f ev =
      if ¬ f = .absent ∧ o.readFails = true
      then { file := f, stderrFallback := true }
      else if o.writeFails = true
      then { file := o.wreckage, stderrFallback := true }
      else { file := .json (.list (readLog f ++ [ev])), stderrFallback := false } := by
  obtain ⟨rf, wf, wk⟩ := o
  cases f with
  | absent =>
    cases rf <;> cases wf <;>
      simp [log_session_event, loadExisting, writeEvents, readLog]
  | unparseable =>
    cases rf <;> cases wf <;>
      simp [log_session_event, loadExisting, writeEvents, readLog]
  | json v =>
    cases v with
    | list es =>
      cases rf <;> cases wf <;>
        simp [log_session_event, loadExisting, writeEvents, readLog]
    | nonList =>
      cases rf <;> cases wf <;>
        simp [log_session_event, loadExisting, writeEvents, readLog]

/-- C7 counterexample: after a run that was given a task and returned
normally, the temporary task file is still on disk — not every
temporary file is deleted on every exit path. -/
theorem C7_counterexample :
    remainingTempFiles (some "build a calculator agent") (.normalReturn 0) ≠ [] := by
  decide

/-- C7 amended: on every exit path the temporary system-prompt file is
deleted by the `finally` block, but the temporary task file, when a task
was given, is never deleted and survives the routine's return. -/
theorem C7_amended_cleanup (task : Option String) (p : ExitPath) :
    remainingTempFiles task p
      = match task with | some _ => [.taskFile] | none => [] := by
  cases task <;> rfl

/-- C8: a dispatcher invocation whose stdin is empty or not JSON falls
back to the empty hook payload and is a no-op: it spawns no restart
script and exits with code 0. -/
theorem C8_empty_stdin_noop (raw : String) :
    restart_hook_main (.emptyOrInvalid raw)
      = { code := 0, restartSpawned := false } := rfl

/-- C9: every sub-agent-stop event whose string `result` is longer than
50 characters takes the restart branch (exit 0, restart script spawned)
even when none of the creation keywords occurs in the text. -/
theorem C9_long_output_restarts (hd : HookData) (s : String)
    (hres : hd.result = some (.str s))
    (hlen : 50 < s.length)
    (hkw : creationKeywords.all
      (fun k => !(subOccurs k.toList (pyLower s))) = true) :
    restart_hook_main (.valid hd) = { code := 0, restartSpawned := true } := by
  have hlc : likely_created s = true := by
    unfold likely_created
    have hd50 : decide (s.length > 50) = true := decide_eq_true hlen
    rw [hd50, Bool.or_true]
  simp [restart_hook_main, taskResultOf, hres, hlc]

/-- Witness for C9: 60 letters containing no creation keyword. -/
theorem C9_long_output_restarts_witness :
    restart_hook_main
        (.valid ⟨some (.str "zzzzzzzzzzzzzzzzzzzzzzzzzzzzzzzzzzzzzzzzzzzzzzzzzzzzzzzzzzzz"), "unused2"⟩)
      = { code := 0, restartSpawned := true } :=
  C9_long_output_restarts _ _ rfl (by decide) (by decide)

/-- C10: an append call finding valid JSON that is not an array (with
working I/O) silently discards that content and rewrites the file as the
one-element array holding only the new event. -/
theorem C10_nonarray_discarded (ev : Event) :
    log_session_event okIO (.json .nonList) ev
      = { file := .json (.list [ev]), stderrFallback := false } := rfl

/-- An identifier character is not a space. -/
theorem identChar_not_space (c : Char) (h : isIdentChar c = true) :
    (c == ' ') = false := by
  cases hc : c == ' '
  · rfl
  · exact absurd h (by rw [show c = ' ' from eq_of_beq hc]; decide)

/-- Dropping the one separator space before text that does not itself
start with a space. -/
theorem skipSpaces_cons_space (cs : List Char) :
    skipSpaces (' ' :: cs) = skipSpaces cs := by
  simp [skipSpaces, List.dropWhile_cons]

/-- A casing variant of `specialized for` does not start with a space. -/
theorem headNotSpace_of_spec (spL : List Char)
    (h : spL.map Char.toLower = specPat) : headNotSpace spL = true := by
  have hsp : specPat = 's' :: "pecialized for".toList := rfl
  rcases spL with _ | ⟨c, cl⟩
  · rw [hsp] at h
    exact absurd h (by simp)
  · rw [hsp] at h
    simp only [List.map_cons, List.cons.injEq] at h
    cases hcs : c == ' '
    · simp [headNotSpace, hcs]
    · have hc : c = ' ' := eq_of_beq hcs
      rw [hc] at h
      exact absurd h.1 (by decide)

/-- Text followed by an end of line keeps a non-space head. -/
theorem headNotSpace_append_nl (pu rest : List Char)
    (h : headNotSpace pu = true) :
    headNotSpace (pu ++ '\n' :: rest) = true := by
  cases pu with
  | nil => rfl
  | cons p0 pl => exact h

/-- The completion signal, built from casing variants of the two
literals, a well-formed identifier and a newline-free purpose, matches
exactly at its own start, capturing name and purpose verbatim. -/
theorem matchAt_build_list (mkL spL nm pu rest : List Char)
    (hmk : mkL.map Char.toLower = markerPat)
    (hsp : spL.map Char.toLower = specPat)
    (hname : nm ≠ [])
    (hnamec : nm.all isIdentChar = true)
    (hpurp : pu.all (fun c => !(c == '\n')) = true)
    (hphead : headNotSpace pu = true) :
    matchAt (mkL ++ ' ' :: (nm ++ ' ' :: (spL ++ ' ' :: (pu ++ '\n' :: rest))))
      = some (String.mk nm, String.mk pu) := by
  rcases nm with _ | ⟨n0, ns⟩
  · exact absurd rfl hname
  simp only [List.all_cons, Bool.and_eq_true] at hnamec
  have h1 := caselessStrip_of_map mkL
    (' ' :: ((n0 :: ns) ++ ' ' :: (spL ++ ' ' :: (pu ++ '\n' :: rest))))
  rw [hmk] at h1
  have h2 : skipSpaces (' ' :: ((n0 :: ns) ++ ' ' :: (spL ++ ' ' :: (pu ++ '\n' :: rest))))
      = (n0 :: ns) ++ ' ' :: (spL ++ ' ' :: (pu ++ '\n' :: rest)) := by
    rw [skipSpaces_cons_space]
    exact skipSpaces_eq_self _
      (by simp [headNotSpace, identChar_not_space n0 hnamec.1])
  have h3 : ((n0 :: ns) ++ ' ' :: (spL ++ ' ' :: (pu ++ '\n' :: rest))).takeWhile isIdentChar
      = n0 :: ns := by
    refine takeWhile_append_stop _ _ _ _ ?_ (by decide)
    simp [List.all_cons, hnamec.1, hnamec.2]
  have h4 : ((n0 :: ns) ++ ' ' :: (spL ++ ' ' :: (pu ++ '\n' :: rest))).dropWhile isIdentChar
      = ' ' :: (spL ++ ' ' :: (pu ++ '\n' :: rest)) := by
    refine dropWhile_append_stop _ _ _ _ ?_ (by decide)
    simp [List.all_cons, hnamec.1, hnamec.2]
  have h5 : skipSpaces (' ' :: (spL ++ ' ' :: (pu ++ '\n' :: rest)))
      = spL ++ ' ' :: (pu ++ '\n' :: rest) := by
    rw [skipSpaces_cons_space]
    refine skipSpaces_eq_self _ ?_
    have hns := headNotSpace_of_spec spL hsp
    cases spL with
    | nil => exact absurd hsp (by decide)
    | cons c0 cl => exact hns
  have h6 := caselessStrip_of_map spL (' ' :: (pu ++ '\n' :: rest))
  rw [hsp] at h6
  have h7 : skipSpaces (' ' :: (pu ++ '\n' :: rest)) = pu ++ '\n' :: rest := by
    rw [skipSpaces_cons_space]
    exact skipSpaces_eq_self _ (headNotSpace_append_nl pu rest hphead)
  have h8 : (pu ++ '\n' :: rest).takeWhile (fun c => !(c == '\n')) = pu :=
    takeWhile_append_stop _ _ _ _ hpurp (by decide)
  unfold matchAt
  rw [h1]
  simp only [h2, h3, h4, h5, h6, h7, h8]

/-- Scanning a text that is arbitrary non-matching material followed by
a well-formed completion signal returns the signal's captures. -/
theorem scanText_build (pre mkL spL nm pu rest : List Char)
    (hmk : mkL.map Char.toLower = markerPat)
    (hsp : spL.map Char.toLower = specPat)
    (hname : nm ≠ [])
    (hnamec : nm.all isIdentChar = true)
    (hpurp : pu.all (fun c => !(c == '\n')) = true)
    (hphead : headNotSpace pu = true)
    (H : noEarlierMatch
      (mkL ++ ' ' :: (nm ++ ' ' :: (spL ++ ' ' :: (pu ++ '\n' :: rest)))) pre = true) :
    scanText (pre ++ (mkL ++ ' ' :: (nm ++ ' ' :: (spL ++ ' ' :: (pu ++ '\n' :: rest)))))
      = some (String.mk nm, String.mk pu) := by
  rw [scanText_skip _ _ H]
  have hb := matchAt_build_list mkL spL nm pu rest hmk hsp hname hnamec hpurp hphead
  cases mkL with
  | nil => exact absurd hmk (by decide)
  | cons m0 ml =>
    show (match matchAt ((m0 :: ml) ++ ' ' :: (nm ++ ' ' :: (spL ++ ' ' :: (pu ++ '\n' :: rest)))) with
      | some r => some r
      | none => scanText (ml ++ ' ' :: (nm ++ ' ' :: (spL ++ ' ' :: (pu ++ '\n' :: rest)))))
      = some (String.mk nm, String.mk pu)
    rw [hb]

/-- C3 (spec-modelled Completion Detector): (1) for every response text
consisting of arbitrary material that starts no earlier match, followed
by a casing variant of the structured marker, a well-formed identifier,
a casing variant of `specialized for` and a newline-terminated purpose,
the detector returns exactly the captured name and purpose; (2) for
every text in which the structured marker does not match, the overall
verdict reports a creation iff both fallback file-existence conditions
hold (more than one markdown agent definition, at least one generated
tool-server file). -/
theorem C3_completion_detector :
    (∀ pre mk name sp purpose rest : String,
      mk.toList.map Char.toLower = markerPat →
      sp.toList.map Char.toLower = specPat →
      name.toList ≠ [] →
      name.toList.all isIdentChar = true →
      purpose.toList.all (fun c => !(c == '\n')) = true →
      headNotSpace purpose.toList = true →
      noEarlierMatch (signalTail mk name sp purpose rest).toList pre.toList = true →
      detect (pre ++ signalTail mk name sp purpose rest) = some (name, purpose)) ∧
    (∀ (text : String) (mdCount toolCount : Nat), detect text = none →
      (detectionVerdict text mdCount toolCount = true ↔ 1 < mdCount ∧ 0 < toolCount)) := by
  constructor
  · intro pre mk name sp purpose rest hmk hsp hname hnamec hpurp hphead H
    have hone : (" " : String).toList = [' '] := rfl
    have hnl : ("\n" : String).toList = ['\n'] := rfl
    have hsh : (signalTail mk name sp purpose rest).toList
        = mk.toList ++ ' ' :: (name.toList ++ ' ' :: (sp.toList
            ++ ' ' :: (purpose.toList ++ '\n' :: rest.toList))) := by
      simp [signalTail, hone, hnl]
    have hfull : (pre ++ signalTail mk name sp purpose rest).toList
        = pre.toList ++ (signalTail mk name sp purpose rest).toList := by
      simp
    rw [hsh] at H
    unfold detect
    rw [hfull, hsh]
    exact scanText_build pre.toList mk.toList sp.toList name.toList
      purpose.toList rest.toList hmk hsp hname hnamec hpurp hphead H
  · intro text md tc h
    simp [detectionVerdict, fallbackHeuristic, h]

/-- Witness for C3: a concrete signal with mixed casing and surrounding
text is captured exactly; a concrete marker-free text triggers the
verdict iff both fallback conditions hold. -/
theorem C3_completion_detector_witness :
    detect ("report: " ++ signalTail "**Agent_Created**:" "calc-agent"
        "Specialized For" "basic math" "done")
      = some ("calc-agent", "basic math") ∧
    (detectionVerdict "nothing to see" 2 1 = true ↔ 1 < 2 ∧ 0 < 1) :=
  ⟨C3_completion_detector.1 "report: " "**Agent_Created**:" "calc-agent"
      "Specialized For" "basic math" "done" (by decide) (by decide)
      (by decide) (by decide) (by decide) (by decide) (by decide),
    C3_completion_detector.2 "nothing to see" 2 1 (by decide)⟩

end SelfExpand
